import Mathlib

/-!
Shallow embedding of `scrapy_httpcache/extensions/cache_storage/file_system.py`
(`FilesystemCacheStorage`) and the header wire-format helpers it delegates to,
together with theorems checking the specification's claims about it.

Modelling conventions:
* raw bytes are `List Char` (one `Char` per byte);
* the on-disk store is an association list from paths (lists of name
  components) to files; directories are implicit in the path keys, and each
  file carries its content and its last-modified time (`os.stat(...).st_mtime`);
* the pickled metadata dictionary is a `Meta` record; file contents are either
  raw bytes or a pickled `Meta` (pickle is an injective serialisation, so the
  sum type `Content` stands for the byte strings it produces);
* wall-clock times are integers (the claims are stated in whole seconds);
* the gzip byte-stream transform (`HTTPCACHE_GZIP`) and the injected request
  fingerprint function (`_request_key`, inherited from the base `CacheStorage`
  class, which the spec describes as an injected dependency) are fields of the
  `Config` record;
* Python exceptions raised by `retrieve_response` (a missing artifact file or
  a failed deserialisation while metadata is present and fresh) surface as
  `Except.error` values.
-/

set_option autoImplicit false

/-- Raw bytes, one `Char` per byte. -/
abbrev Bytes := List Char

/-- A filesystem path, as the list of its name components. -/
abbrev FPath := List Bytes

/-- The metadata dictionary built by `store_response`:
`{"url": request.url, "method": request.method, "status": response.status,
"response_url": response.url, "timestamp": time()}`. `response_url` is
optional because `retrieve_response` reads it with `metadata.get`, which
tolerates its absence (entries written by older cache versions). -/
structure Meta where
  url : String
  method : String
  status : Nat
  response_url : Option String
  timestamp : Int
deriving DecidableEq

/-- Content of a cache artifact file: raw payload bytes, or a pickled `Meta`
(the image of the injective pickle serialisation). -/
inductive Content where
  | bytes (b : Bytes)
  | meta (m : Meta)
deriving DecidableEq

/-- A stored file: its content and its last-modified time. -/
structure FsFile where
  content : Content
  mtime : Int
deriving DecidableEq

/-- The on-disk store: an association list from paths to files. -/
abbrev FS := List (FPath × FsFile)

/-- Look a path up in the store. -/
def fsGet : FS → FPath → Option FsFile
  | [], _ => none
  | (q, f) :: rest, p => if q = p then some f else fsGet rest p

/-- Write a file at a path, fully replacing any prior content there. -/
def fsSet : FS → FPath → FsFile → FS
  | [], p, f => [(p, f)]
  | (q, g) :: rest, p, f => if q = p then (p, f) :: rest else (q, g) :: fsSet rest p f

/-- A request as seen by the storage backend: method, URL, headers
(name/value pairs, duplicates allowed) and body bytes. -/
structure Request where
  url : String
  method : String
  headers : List (Bytes × Bytes)
  body : Bytes
deriving DecidableEq

/-- A response: URL, status, headers and body bytes. The URL is optional
because `retrieve_response` rebuilds it from `metadata.get("response_url")`,
which may be absent. Headers are the flat list of name/value pairs (the
case-normalisation done by the external `Headers` class applies identically
on the store and retrieve sides, so it is not repeated here). -/
structure Response where
  url : Option String
  status : Nat
  headers : List (Bytes × Bytes)
  body : Bytes
deriving DecidableEq

/-- Storage configuration: cache root directory (`HTTPCACHE_DIR` resolved by
`data_path`), expiration in seconds (`HTTPCACHE_EXPIRATION_SECS`, from the
base class), the byte-stream transform applied on write (`enc`) and read
(`dec`) — identity, or gzip when `HTTPCACHE_GZIP` is set — and the injected
request fingerprint function. The fingerprint is modelled from the spec: the
base-class `_request_key` is not part of this file's source and the spec
treats it as an injected dependency producing a stable key string. -/
structure Config where
  cachedir : Bytes
  expiration_secs : Int
  enc : Content → Content
  dec : Content → Content
  fingerprint : Request → Bytes

/-- Python `str`/`bytes` whitespace recognised by `.strip()`. -/
def pyWS (c : Char) : Bool :=
  c = ' ' || c = '\t' || c = '\n' || c = '\r' || c = '\x0b' || c = '\x0c'

/-- Python `bytes.strip()`: drop leading and trailing ASCII whitespace. -/
def strip (s : Bytes) : Bytes :=
  ((s.dropWhile pyWS).reverse.dropWhile pyWS).reverse

/-- Worker for `splitlines`: `cur` is the current line, reversed. Python
`bytes.splitlines()` splits on `\r\n`, `\r` and `\n` and drops a trailing
empty line. -/
def splitlinesGo : Bytes → Bytes → List Bytes
  | [], cur => if cur = [] then [] else [cur.reverse]
  | '\r' :: '\n' :: rest, cur => cur.reverse :: splitlinesGo rest []
  | '\r' :: rest, cur => cur.reverse :: splitlinesGo rest []
  | '\n' :: rest, cur => cur.reverse :: splitlinesGo rest []
  | c :: rest, cur => splitlinesGo rest (c :: cur)

/-- Python `bytes.splitlines()`. -/
def splitlines (s : Bytes) : List Bytes := splitlinesGo s []

/-- Python `line.split(b": ", 1)` restricted to the found case: split at the
first occurrence of `": "`, `none` when the separator does not occur. -/
def splitOnceColonSp : Bytes → Option (Bytes × Bytes)
  | [] => none
  | [_] => none
  | c :: d :: rest =>
    if c = ':' ∧ d = ' ' then some ([], rest)
    else
      match splitOnceColonSp (d :: rest) with
      | some (a, b) => some (c :: a, b)
      | none => none

/-- Python `b"\r\n".join(lines)`. -/
def joinCrlf : List Bytes → Bytes
  | [] => []
  | [l] => l
  | l :: rest => l ++ '\r' :: '\n' :: joinCrlf rest

/-- Modelled from the spec: the raw HTTP header wire format written by
`w3lib.http.headers_dict_to_raw` (not part of this repository's sources) —
one `Name: Value` line per header pair, lines joined with `\r\n`. -/
def headers_dict_to_raw (hs : List (Bytes × Bytes)) : Bytes :=
  joinCrlf (hs.map fun kv => kv.1 ++ ':' :: ' ' :: kv.2)

/-- Modelled from the spec: `w3lib.http.headers_raw_to_dict` (not part of
this repository's sources) — split the raw bytes into lines, split each line
at the first `": "`, strip name and value, and skip lines without the
separator. The grouped dictionary it builds is flattened to the list of
name/value pairs it contains. -/
def headers_raw_to_dict (raw : Bytes) : List (Bytes × Bytes) :=
  (splitlines raw).filterMap fun line =>
    match splitOnceColonSp line with
    | some (k, v) => some (strip k, strip v)
    | none => none

/-- Simplified Python `repr` of a string (quotes, no escaping), used only for
the human-readable `meta` debug artifact, which is never read back. -/
def pyStr (s : String) : String := "'" ++ s ++ "'"

/-- Python `repr` of the optional `response_url` value. -/
def pyOptStr : Option String → String
  | none => "None"
  | some s => pyStr s

/-- The human-readable `meta` artifact: `to_bytes(repr(metadata))`. -/
def metaRepr (m : Meta) : Bytes :=
  ("\x7b'url': " ++ pyStr m.url ++ ", 'method': " ++ pyStr m.method ++
    ", 'status': " ++ toString m.status ++ ", 'response_url': " ++
    pyOptStr m.response_url ++ ", 'timestamp': " ++ toString m.timestamp ++
    "\x7d").data

/-- `FilesystemCacheStorage._get_request_path`:
`os.path.join(self.cachedir, spider.name, key[0:2], key)`. -/
def _get_request_path (cfg : Config) (scope : Bytes) (req : Request) : FPath :=
  [cfg.cachedir, scope, (cfg.fingerprint req).take 2, cfg.fingerprint req]

/-- Errors surfaced by `retrieve_response` (raised Python exceptions): a
required artifact file is missing, or its content fails to deserialize.
These are the spec's `CorruptEntryError` category. -/
inductive CacheErr where
  | missingArtifact (p : FPath)
  | badData (p : FPath)
deriving DecidableEq

/-- `FilesystemCacheStorage._read_meta`: absent `pickled_meta` is a miss;
an entry older than a positive `expiration_secs` (strict comparison
`0 < self.expiration_secs < time() - mtime`) is a miss; otherwise the
metadata is unpickled (a failure to deserialize propagates as an error). -/
def _read_meta (cfg : Config) (scope : Bytes) (req : Request) (now : Int)
    (fs : FS) : Except CacheErr (Option Meta) :=
  let rpath := _get_request_path cfg scope req
  let metapath := rpath ++ ["pickled_meta".data]
  match fsGet fs metapath with
  | none => Except.ok none
  | some file =>
    if 0 < cfg.expiration_secs ∧ cfg.expiration_secs < now - file.mtime then
      Except.ok none
    else
      match cfg.dec file.content with
      | Content.meta m => Except.ok (some m)
      | Content.bytes _ => Except.error (CacheErr.badData metapath)

/-- `FilesystemCacheStorage.retrieve_response`: read the metadata (miss ⇒
`none`), then read `response_body` and `response_headers` through the
byte-stream transform, and rebuild the response from
`metadata.get("response_url")`, `metadata["status"]`, the parsed headers and
the body. The store is returned unchanged alongside the result. -/
def retrieve_response (cfg : Config) (scope : Bytes) (req : Request)
    (now : Int) (fs : FS) : Except CacheErr (Option Response) × FS :=
  match _read_meta cfg scope req now fs with
  | Except.error e => (Except.error e, fs)
  | Except.ok none => (Except.ok none, fs)
  | Except.ok (some metadata) =>
    let rpath := _get_request_path cfg scope req
    match fsGet fs (rpath ++ ["response_body".data]) with
    | none => (Except.error (CacheErr.missingArtifact (rpath ++ ["response_body".data])), fs)
    | some bf =>
      match cfg.dec bf.content with
      | Content.meta _ => (Except.error (CacheErr.badData (rpath ++ ["response_body".data])), fs)
      | Content.bytes body =>
        match fsGet fs (rpath ++ ["response_headers".data]) with
        | none => (Except.error (CacheErr.missingArtifact (rpath ++ ["response_headers".data])), fs)
        | some hf =>
          match cfg.dec hf.content with
          | Content.meta _ => (Except.error (CacheErr.badData (rpath ++ ["response_headers".data])), fs)
          | Content.bytes rawheaders =>
            (Except.ok (some { url := metadata.response_url
                             , status := metadata.status
                             , headers := headers_raw_to_dict rawheaders
                             , body := body }), fs)

/-- The metadata dictionary assembled by `store_response`. -/
def storedMeta (req : Request) (resp : Response) (now : Int) : Meta :=
  { url := req.url, method := req.method, status := resp.status
  , response_url := resp.url, timestamp := now }

/-- The six artifact writes performed by `FilesystemCacheStorage.store_response`,
in source order, each through the byte-stream transform, each stamped with the
write time. -/
def store_writes (cfg : Config) (scope : Bytes) (req : Request)
    (resp : Response) (now : Int) : List (FPath × FsFile) :=
  let rpath := _get_request_path cfg scope req
  let metadata : Meta := storedMeta req resp now
  [ (rpath ++ ["meta".data],
      ⟨cfg.enc (Content.bytes (metaRepr metadata)), now⟩)
  , (rpath ++ ["pickled_meta".data],
      ⟨cfg.enc (Content.meta metadata), now⟩)
  , (rpath ++ ["response_headers".data],
      ⟨cfg.enc (Content.bytes (headers_dict_to_raw resp.headers)), now⟩)
  , (rpath ++ ["response_body".data],
      ⟨cfg.enc (Content.bytes resp.body), now⟩)
  , (rpath ++ ["request_headers".data],
      ⟨cfg.enc (Content.bytes (headers_dict_to_raw req.headers)), now⟩)
  , (rpath ++ ["request_body".data],
      ⟨cfg.enc (Content.bytes req.body), now⟩) ]

/-- `FilesystemCacheStorage.store_response`: perform the six artifact writes
in order (directory creation is implicit in the path-keyed store model). -/
def store_response (cfg : Config) (scope : Bytes) (req : Request)
    (resp : Response) (now : Int) (fs : FS) : FS :=
  (store_writes cfg scope req resp now).foldl (fun a pf => fsSet a pf.1 pf.2) fs

deriving instance DecidableEq for Except

/-- Header names and values that survive the wire format: no CR or LF bytes
and no surrounding ASCII whitespace (so `strip` is the identity); names
additionally must not contain the `": "` separator. -/
abbrev cleanValue (s : Bytes) : Prop :=
  (∀ c ∈ s, c ≠ '\r' ∧ c ≠ '\n') ∧ strip s = s

/-- Wire-format-safe header name: a clean value with no `": "` inside. -/
abbrev cleanName (s : Bytes) : Prop :=
  cleanValue s ∧ splitOnceColonSp s = none

/-- A header list whose names and values all survive the wire format. -/
abbrev cleanHeaderList (hs : List (Bytes × Bytes)) : Prop :=
  ∀ kv ∈ hs, cleanName kv.1 ∧ cleanValue kv.2

/-- Concrete configuration used by witnesses: identity byte-stream transform,
constant fingerprint `"abcd"`, expiration `e`. -/
def cfgOf (e : Int) : Config :=
  ⟨"cache".data, e, id, id, fun _ => "abcd".data⟩

/-- Concrete request used by witnesses. -/
def reqW : Request :=
  ⟨"http://x/a", "GET", [("Content-Type".data, "text/html".data)], []⟩

/-- Concrete response used by witnesses (the spec's concrete scenario). -/
def respW : Response :=
  ⟨some "http://x/a", 200, [("Content-Type".data, "text/html".data)],
    "<html></html>".data⟩

/-- The entry path for `cfgOf`/`reqW` under scope `"sc"`. -/
def pW : FPath := ["cache".data, "sc".data, "ab".data, "abcd".data]

/-- Concrete stored metadata used by witnesses (written at time 100). -/
def mW : Meta := ⟨"http://x/a", "GET", 200, some "http://x/a", 100⟩

/-- Concrete stored metadata lacking `response_url` (an entry written by an
older cache version). -/
def mNoUrl : Meta := ⟨"http://x/a", "GET", 200, none, 100⟩

/-- A complete concrete entry on disk (metadata, body `"B"`, empty headers),
all written at time 100. -/
def fsFull (m : Meta) : FS :=
  [ (pW ++ ["pickled_meta".data], ⟨Content.meta m, 100⟩)
  , (pW ++ ["response_body".data], ⟨Content.bytes "B".data, 100⟩)
  , (pW ++ ["response_headers".data], ⟨Content.bytes [], 100⟩) ]

/-- A concrete entry whose `response_body` artifact was deleted out-of-band. -/
def fsNoBody : FS :=
  [ (pW ++ ["pickled_meta".data], ⟨Content.meta mW, 100⟩)
  , (pW ++ ["response_headers".data], ⟨Content.bytes [], 100⟩) ]

/-- A response carrying a header value with an embedded newline. -/
def respDirty : Response := ⟨some "http://x/a", 200, [(['K'], "a\nb".data)], []⟩

/-- The concrete metadata `mW` with a different stored `timestamp` field. -/
def mTs : Meta := ⟨"http://x/a", "GET", 200, some "http://x/a", 777⟩

lemma splitlinesGo_append (l : Bytes) (h : ∀ c ∈ l, c ≠ '\r' ∧ c ≠ '\n')
    (rest cur : Bytes) :
    splitlinesGo (l ++ rest) cur = splitlinesGo rest (l.reverse ++ cur) := by
  induction l generalizing cur with
  | nil => simp
  | cons c l' ih =>
    obtain ⟨hc1, hc2⟩ := h c (by simp)
    have h' : ∀ x ∈ l', x ≠ '\r' ∧ x ≠ '\n' := fun x hx => h x (by simp [hx])
    rw [List.cons_append]
    rw [show splitlinesGo (c :: (l' ++ rest)) cur = splitlinesGo (l' ++ rest) (c :: cur) by
      simp [splitlinesGo, hc1, hc2]]
    rw [ih h']
    simp

lemma splitlines_joinCrlf (lines : List Bytes)
    (h : ∀ l ∈ lines, (∀ c ∈ l, c ≠ '\r' ∧ c ≠ '\n') ∧ l ≠ []) :
    splitlines (joinCrlf lines) = lines := by
  induction lines with
  | nil => rfl
  | cons l rest ih =>
    match rest with
    | [] =>
      obtain ⟨hc, hne⟩ := h l (by simp)
      show splitlinesGo (joinCrlf [l]) [] = [l]
      calc splitlinesGo (joinCrlf [l]) [] = splitlinesGo (l ++ []) [] := by
            rw [joinCrlf, List.append_nil]
        _ = splitlinesGo [] (l.reverse ++ []) := splitlinesGo_append l hc [] []
        _ = [l] := by simp [splitlinesGo, hne]
    | r :: rs =>
      obtain ⟨hc, _⟩ := h l (by simp)
      have hrest : ∀ x ∈ r :: rs, (∀ c ∈ x, c ≠ '\r' ∧ c ≠ '\n') ∧ x ≠ [] :=
        fun x hx => h x (by simp [hx])
      show splitlinesGo (l ++ '\r' :: '\n' :: joinCrlf (r :: rs)) [] = l :: r :: rs
      rw [splitlinesGo_append l hc]
      simp only [List.append_nil]
      rw [show splitlinesGo ('\r' :: '\n' :: joinCrlf (r :: rs)) l.reverse
            = l.reverse.reverse :: splitlinesGo (joinCrlf (r :: rs)) [] from rfl]
      rw [List.reverse_reverse]
      exact congrArg (l :: ·) (ih hrest)

lemma splitOnceColonSp_cons (c d : Char) (rest : Bytes) (h : ¬(c = ':' ∧ d = ' ')) :
    splitOnceColonSp (c :: d :: rest) = match splitOnceColonSp (d :: rest) with
      | some (a, b) => some (c :: a, b)
      | none => none := by
  rw [splitOnceColonSp, if_neg h]

lemma splitOnceColonSp_boundary (k v : Bytes) (hk : splitOnceColonSp k = none) :
    splitOnceColonSp (k ++ ':' :: ' ' :: v) = some (k, v) := by
  induction k with
  | nil => simp [splitOnceColonSp]
  | cons c k' ih =>
    match k' with
    | [] =>
      by_cases hc : c = ':'
      · simp [splitOnceColonSp, hc]
      · simp [splitOnceColonSp, hc]
    | d :: k'' =>
      have hcond : ¬(c = ':' ∧ d = ' ') := by
        intro hcd
        simp [splitOnceColonSp, hcd.1, hcd.2] at hk
      have hk' : splitOnceColonSp (d :: k'') = none := by
        rw [splitOnceColonSp_cons c d k'' hcond] at hk
        revert hk
        match splitOnceColonSp (d :: k'') with
        | some (a, b) => intro hk; exact absurd hk (by simp)
        | none => intro _; rfl
      have e2 : (c :: d :: k'') ++ ':' :: ' ' :: v = c :: d :: (k'' ++ ':' :: ' ' :: v) := by
        simp
      rw [e2, splitOnceColonSp_cons c d _ hcond]
      have e3 : d :: (k'' ++ ':' :: ' ' :: v) = (d :: k'') ++ ':' :: ' ' :: v := by simp
      rw [e3, ih hk']

lemma parse_print_lines (hs : List (Bytes × Bytes)) (h : cleanHeaderList hs) :
    ((hs.map fun kv => kv.1 ++ ':' :: ' ' :: kv.2).filterMap fun line =>
      match splitOnceColonSp line with
      | some (k, v) => some (strip k, strip v)
      | none => none) = hs := by
  induction hs with
  | nil => rfl
  | cons kv rest ih =>
    obtain ⟨⟨⟨_, hn2⟩, hn3⟩, _, hv2⟩ := h kv (by simp)
    have hrest : cleanHeaderList rest := fun x hx => h x (by simp [hx])
    simp only [List.map_cons, List.filterMap_cons]
    rw [splitOnceColonSp_boundary kv.1 kv.2 hn3]
    simp only [hn2, hv2]
    rw [ih hrest]

lemma raw_roundtrip (hs : List (Bytes × Bytes)) (h : cleanHeaderList hs) :
    headers_raw_to_dict (headers_dict_to_raw hs) = hs := by
  unfold headers_raw_to_dict headers_dict_to_raw splitlines
  have hlines : ∀ l ∈ hs.map fun kv => kv.1 ++ ':' :: ' ' :: kv.2,
      (∀ c ∈ l, c ≠ '\r' ∧ c ≠ '\n') ∧ l ≠ [] := by
    intro l hl
    obtain ⟨kv, hkv, rfl⟩ := List.mem_map.mp hl
    obtain ⟨⟨⟨hn1, _⟩, _⟩, hv1, _⟩ := h kv hkv
    constructor
    · intro c hc
      rcases List.mem_append.mp hc with h1 | h2
      · exact hn1 c h1
      · rcases h2 with _ | ⟨_, h3⟩
        · exact ⟨by decide, by decide⟩
        · rcases h3 with _ | ⟨_, h4⟩
          · exact ⟨by decide, by decide⟩
          · exact hv1 c h4
    · simp
  have hsl := splitlines_joinCrlf (hs.map fun kv => kv.1 ++ ':' :: ' ' :: kv.2) hlines
  unfold splitlines at hsl
  rw [hsl]
  exact parse_print_lines hs h

lemma fsGet_fsSet_self (fs : FS) (p : FPath) (f : FsFile) :
    fsGet (fsSet fs p f) p = some f := by
  induction fs with
  | nil => simp [fsSet, fsGet]
  | cons qg rest ih =>
    by_cases h : qg.1 = p
    · simp [fsSet, fsGet, h]
    · simp [fsSet, fsGet, h, ih]

lemma fsGet_fsSet_ne (fs : FS) (p q : FPath) (f : FsFile) (h : p ≠ q) :
    fsGet (fsSet fs p f) q = fsGet fs q := by
  induction fs with
  | nil => simp [fsSet, fsGet, h]
  | cons qg rest ih =>
    obtain ⟨q', g⟩ := qg
    simp only [fsSet]
    by_cases h1 : q' = p
    · rw [if_pos h1, h1]
      simp [fsGet, h]
    · rw [if_neg h1]
      simp only [fsGet]
      by_cases h2 : q' = q
      · rw [if_pos h2, if_pos h2]
      · rw [if_neg h2, if_neg h2, ih]

lemma snoc_ne (p : FPath) (a b : Bytes) (h : a ≠ b) : p ++ [a] ≠ p ++ [b] := by
  intro he
  exact h (by simpa using he)

lemma fsGet_foldl_frame (ws : List (FPath × FsFile)) (fs : FS) (q : FPath)
    (h : ∀ w ∈ ws, w.1 ≠ q) :
    fsGet (ws.foldl (fun a pf => fsSet a pf.1 pf.2) fs) q = fsGet fs q := by
  induction ws generalizing fs with
  | nil => rfl
  | cons w ws ih =>
    simp only [List.foldl]
    rw [ih _ fun x hx => h x (by simp [hx]), fsGet_fsSet_ne _ _ _ _ (h w (by simp))]

lemma store_get_meta (cfg : Config) (scope : Bytes) (req : Request)
    (resp : Response) (now : Int) (fs : FS) :
    fsGet (store_response cfg scope req resp now fs)
        (_get_request_path cfg scope req ++ ["meta".data]) =
      some ⟨cfg.enc (Content.bytes (metaRepr (storedMeta req resp now))), now⟩ := by
  unfold store_response store_writes
  simp only [List.foldl]
  rw [fsGet_fsSet_ne _ _ _ _ (snoc_ne _ _ _ (by decide)),
      fsGet_fsSet_ne _ _ _ _ (snoc_ne _ _ _ (by decide)),
      fsGet_fsSet_ne _ _ _ _ (snoc_ne _ _ _ (by decide)),
      fsGet_fsSet_ne _ _ _ _ (snoc_ne _ _ _ (by decide)),
      fsGet_fsSet_ne _ _ _ _ (snoc_ne _ _ _ (by decide)),
      fsGet_fsSet_self]

lemma store_get_pickled_meta (cfg : Config) (scope : Bytes) (req : Request)
    (resp : Response) (now : Int) (fs : FS) :
    fsGet (store_response cfg scope req resp now fs)
        (_get_request_path cfg scope req ++ ["pickled_meta".data]) =
      some ⟨cfg.enc (Content.meta (storedMeta req resp now)), now⟩ := by
  unfold store_response store_writes
  simp only [List.foldl]
  rw [fsGet_fsSet_ne _ _ _ _ (snoc_ne _ _ _ (by decide)),
      fsGet_fsSet_ne _ _ _ _ (snoc_ne _ _ _ (by decide)),
      fsGet_fsSet_ne _ _ _ _ (snoc_ne _ _ _ (by decide)),
      fsGet_fsSet_ne _ _ _ _ (snoc_ne _ _ _ (by decide)),
      fsGet_fsSet_self]

lemma store_get_response_headers (cfg : Config) (scope : Bytes) (req : Request)
    (resp : Response) (now : Int) (fs : FS) :
    fsGet (store_response cfg scope req resp now fs)
        (_get_request_path cfg scope req ++ ["response_headers".data]) =
      some ⟨cfg.enc (Content.bytes (headers_dict_to_raw resp.headers)), now⟩ := by
  unfold store_response store_writes
  simp only [List.foldl]
  rw [fsGet_fsSet_ne _ _ _ _ (snoc_ne _ _ _ (by decide)),
      fsGet_fsSet_ne _ _ _ _ (snoc_ne _ _ _ (by decide)),
      fsGet_fsSet_ne _ _ _ _ (snoc_ne _ _ _ (by decide)),
      fsGet_fsSet_self]

lemma store_get_response_body (cfg : Config) (scope : Bytes) (req : Request)
    (resp : Response) (now : Int) (fs : FS) :
    fsGet (store_response cfg scope req resp now fs)
        (_get_request_path cfg scope req ++ ["response_body".data]) =
      some ⟨cfg.enc (Content.bytes resp.body), now⟩ := by
  unfold store_response store_writes
  simp only [List.foldl]
  rw [fsGet_fsSet_ne _ _ _ _ (snoc_ne _ _ _ (by decide)),
      fsGet_fsSet_ne _ _ _ _ (snoc_ne _ _ _ (by decide)),
      fsGet_fsSet_self]

lemma store_get_request_headers (cfg : Config) (scope : Bytes) (req : Request)
    (resp : Response) (now : Int) (fs : FS) :
    fsGet (store_response cfg scope req resp now fs)
        (_get_request_path cfg scope req ++ ["request_headers".data]) =
      some ⟨cfg.enc (Content.bytes (headers_dict_to_raw req.headers)), now⟩ := by
  unfold store_response store_writes
  simp only [List.foldl]
  rw [fsGet_fsSet_ne _ _ _ _ (snoc_ne _ _ _ (by decide)),
      fsGet_fsSet_self]

lemma store_get_request_body (cfg : Config) (scope : Bytes) (req : Request)
    (resp : Response) (now : Int) (fs : FS) :
    fsGet (store_response cfg scope req resp now fs)
        (_get_request_path cfg scope req ++ ["request_body".data]) =
      some ⟨cfg.enc (Content.bytes req.body), now⟩ := by
  unfold store_response store_writes
  simp only [List.foldl]
  rw [fsGet_fsSet_self]

lemma retrieve_present (cfg : Config) (scope : Bytes) (req : Request) (now : Int)
    (fs : FS) (m : Meta) (cm cb ch : Content) (b rh : Bytes) (t0 tb th : Int)
    (h1 : fsGet fs (_get_request_path cfg scope req ++ ["pickled_meta".data]) = some ⟨cm, t0⟩)
    (h2 : cfg.dec cm = Content.meta m)
    (hfresh : ¬(0 < cfg.expiration_secs ∧ cfg.expiration_secs < now - t0))
    (h3 : fsGet fs (_get_request_path cfg scope req ++ ["response_body".data]) = some ⟨cb, tb⟩)
    (h4 : cfg.dec cb = Content.bytes b)
    (h5 : fsGet fs (_get_request_path cfg scope req ++ ["response_headers".data]) = some ⟨ch, th⟩)
    (h6 : cfg.dec ch = Content.bytes rh) :
    retrieve_response cfg scope req now fs =
      (Except.ok (some ⟨m.response_url, m.status, headers_raw_to_dict rh, b⟩), fs) := by
  simp only [retrieve_response, _read_meta, h1, if_neg hfresh, h2, h3, h4, h5, h6]

lemma retrieve_of_expired (cfg : Config) (scope : Bytes) (req : Request) (now : Int)
    (fs : FS) (cm : Content) (t0 : Int)
    (h1 : fsGet fs (_get_request_path cfg scope req ++ ["pickled_meta".data]) = some ⟨cm, t0⟩)
    (hexp : 0 < cfg.expiration_secs ∧ cfg.expiration_secs < now - t0) :
    retrieve_response cfg scope req now fs = (Except.ok none, fs) := by
  simp only [retrieve_response, _read_meta, h1, if_pos hexp]

lemma retrieve_of_absent (cfg : Config) (scope : Bytes) (req : Request) (now : Int)
    (fs : FS)
    (h1 : fsGet fs (_get_request_path cfg scope req ++ ["pickled_meta".data]) = none) :
    retrieve_response cfg scope req now fs = (Except.ok none, fs) := by
  simp only [retrieve_response, _read_meta, h1]

lemma retrieve_no_body (cfg : Config) (scope : Bytes) (req : Request) (now : Int)
    (fs : FS) (m : Meta) (cm : Content) (t0 : Int)
    (h1 : fsGet fs (_get_request_path cfg scope req ++ ["pickled_meta".data]) = some ⟨cm, t0⟩)
    (h2 : cfg.dec cm = Content.meta m)
    (hfresh : ¬(0 < cfg.expiration_secs ∧ cfg.expiration_secs < now - t0))
    (h3 : fsGet fs (_get_request_path cfg scope req ++ ["response_body".data]) = none) :
    retrieve_response cfg scope req now fs =
      (Except.error (CacheErr.missingArtifact
        (_get_request_path cfg scope req ++ ["response_body".data])), fs) := by
  simp only [retrieve_response, _read_meta, h1, if_neg hfresh, h2, h3]

lemma retrieve_bad_body (cfg : Config) (scope : Bytes) (req : Request) (now : Int)
    (fs : FS) (m mm : Meta) (cm : Content) (t0 tb : Int) (bc : Content)
    (h1 : fsGet fs (_get_request_path cfg scope req ++ ["pickled_meta".data]) = some ⟨cm, t0⟩)
    (h2 : cfg.dec cm = Content.meta m)
    (hfresh : ¬(0 < cfg.expiration_secs ∧ cfg.expiration_secs < now - t0))
    (h3 : fsGet fs (_get_request_path cfg scope req ++ ["response_body".data]) = some ⟨bc, tb⟩)
    (h4 : cfg.dec bc = Content.meta mm) :
    retrieve_response cfg scope req now fs =
      (Except.error (CacheErr.badData
        (_get_request_path cfg scope req ++ ["response_body".data])), fs) := by
  simp only [retrieve_response, _read_meta, h1, if_neg hfresh, h2, h3, h4]

lemma retrieve_result_congr (cfg : Config) (scope : Bytes) (req : Request) (now : Int)
    (fs1 fs2 : FS)
    (hm : fsGet fs1 (_get_request_path cfg scope req ++ ["pickled_meta".data]) =
          fsGet fs2 (_get_request_path cfg scope req ++ ["pickled_meta".data]))
    (hb : fsGet fs1 (_get_request_path cfg scope req ++ ["response_body".data]) =
          fsGet fs2 (_get_request_path cfg scope req ++ ["response_body".data]))
    (hh : fsGet fs1 (_get_request_path cfg scope req ++ ["response_headers".data]) =
          fsGet fs2 (_get_request_path cfg scope req ++ ["response_headers".data])) :
    (retrieve_response cfg scope req now fs1).1 =
      (retrieve_response cfg scope req now fs2).1 := by
  simp only [retrieve_response, _read_meta]
  rw [hm, hb, hh]
  cases hx : fsGet fs2 (_get_request_path cfg scope req ++ ["pickled_meta".data]) with
  | none => rfl
  | some file =>
    dsimp only
    by_cases hex : 0 < cfg.expiration_secs ∧ cfg.expiration_secs < now - file.mtime
    · rw [if_pos hex]
    · rw [if_neg hex]
      cases cfg.dec file.content with
      | bytes b => rfl
      | meta m =>
        dsimp only
        cases fsGet fs2 (_get_request_path cfg scope req ++ ["response_body".data]) with
        | none => rfl
        | some bf =>
          dsimp only
          cases cfg.dec bf.content with
          | meta _ => rfl
          | bytes body =>
            dsimp only
            cases fsGet fs2 (_get_request_path cfg scope req ++ ["response_headers".data]) with
            | none => rfl
            | some hf =>
              dsimp only
              cases cfg.dec hf.content with
              | meta _ => rfl
              | bytes rh => rfl

/-- C1 (amended): storing a response and immediately retrieving it under the
same store returns a response whose status, body bytes, headers and URL equal
those of the stored response, provided the byte-stream transform is
reversible and every header name and value survives the raw wire format (no
CR/LF bytes, no surrounding ASCII whitespace, and no `": "` inside a name).
The retrieved header list is equal to the stored one as a list, hence also as
a set of name/value pairs. -/
theorem round_trip_clean (cfg : Config) (scope : Bytes) (req : Request)
    (resp : Response) (now : Int) (fs : FS)
    (hdec : ∀ c, cfg.dec (cfg.enc c) = c)
    (hh : cleanHeaderList resp.headers) :
    (retrieve_response cfg scope req now (store_response cfg scope req resp now fs)).1 =
      Except.ok (some resp) := by
  have hfresh : ¬(0 < cfg.expiration_secs ∧ cfg.expiration_secs < now - now) := by omega
  rw [retrieve_present cfg scope req now _ (storedMeta req resp now)
        (cfg.enc (Content.meta (storedMeta req resp now)))
        (cfg.enc (Content.bytes resp.body))
        (cfg.enc (Content.bytes (headers_dict_to_raw resp.headers)))
        resp.body (headers_dict_to_raw resp.headers) now now now
        (store_get_pickled_meta cfg scope req resp now fs) (hdec _) hfresh
        (store_get_response_body cfg scope req resp now fs) (hdec _)
        (store_get_response_headers cfg scope req resp now fs) (hdec _)]
  rw [raw_roundtrip resp.headers hh]
  rfl

/-- C1 witness: the spec's concrete scenario (GET `http://x/a`, status 200,
`Content-Type: text/html`, body `<html></html>`) round-trips exactly. -/
theorem round_trip_clean_witness :
    (retrieve_response (cfgOf 5) "sc".data reqW 0
      (store_response (cfgOf 5) "sc".data reqW respW 0 [])).1 =
      Except.ok (some respW) :=
  round_trip_clean (cfgOf 5) "sc".data reqW respW 0 [] (fun _ => rfl) (by decide)

/-- C1 counterexample: a response with the single header `K: a\nb` is stored,
and retrieval returns the header pair `(K, a)` only — the pair `(K, a\nb)` is
lost, so headers are not preserved as a set of name/value pairs for every
response. -/
theorem round_trip_newline_cex :
    (['K'], "a\nb".data) ∈ respDirty.headers ∧
    (retrieve_response (cfgOf 5) "sc".data reqW 0
      (store_response (cfgOf 5) "sc".data reqW respDirty 0 [])).1 =
      Except.ok (some ⟨some "http://x/a", 200, [(['K'], ['a'])], []⟩) ∧
    (['K'], "a\nb".data) ∉ [((['K'], ['a']) : Bytes × Bytes)] := by
  refine ⟨by decide, by decide, by decide⟩

/-- C2: when the `pickled_meta` artifact is present, fresh and deserialisable
but the `response_body` artifact is missing or fails to deserialize,
`retrieve_response` surfaces a hard error (the spec's `CorruptEntryError`
category, a raised exception in the source), and in particular returns
neither an absent result nor any response (so no empty-body response). -/
theorem corrupt_entry_hard_error (cfg : Config) (scope : Bytes) (req : Request)
    (now : Int) (fs : FS) (m : Meta) (cm : Content) (t0 : Int)
    (h1 : fsGet fs (_get_request_path cfg scope req ++ ["pickled_meta".data]) = some ⟨cm, t0⟩)
    (h2 : cfg.dec cm = Content.meta m)
    (hfresh : ¬(0 < cfg.expiration_secs ∧ cfg.expiration_secs < now - t0))
    (hbad : fsGet fs (_get_request_path cfg scope req ++ ["response_body".data]) = none ∨
      ∃ bf mm, fsGet fs (_get_request_path cfg scope req ++ ["response_body".data]) = some bf ∧
        cfg.dec bf.content = Content.meta mm) :
    (∃ e, (retrieve_response cfg scope req now fs).1 = Except.error e) ∧
    (retrieve_response cfg scope req now fs).1 ≠ Except.ok none ∧
    ∀ r : Response, (retrieve_response cfg scope req now fs).1 ≠ Except.ok (some r) := by
  have herr : ∃ e, (retrieve_response cfg scope req now fs).1 = Except.error e := by
    rcases hbad with h3 | ⟨bf, mm, h3, h4⟩
    · exact ⟨_, by rw [retrieve_no_body cfg scope req now fs m cm t0 h1 h2 hfresh h3]⟩
    · obtain ⟨bc, tb⟩ := bf
      exact ⟨_, by rw [retrieve_bad_body cfg scope req now fs m mm cm t0 tb bc h1 h2 hfresh h3 h4]⟩
  obtain ⟨e, he⟩ := herr
  refine ⟨⟨e, he⟩, ?_, ?_⟩
  · rw [he]; simp
  · intro r; rw [he]; simp

/-- C2 witness: a concrete entry whose `response_body` was deleted
out-of-band makes retrieval fail hard. -/
theorem corrupt_entry_hard_error_witness :
    (∃ e, (retrieve_response (cfgOf 5) "sc".data reqW 100 fsNoBody).1 = Except.error e) ∧
    (retrieve_response (cfgOf 5) "sc".data reqW 100 fsNoBody).1 ≠ Except.ok none ∧
    ∀ r : Response, (retrieve_response (cfgOf 5) "sc".data reqW 100 fsNoBody).1 ≠
      Except.ok (some r) :=
  corrupt_entry_hard_error (cfgOf 5) "sc".data reqW 100 fsNoBody mW (Content.meta mW) 100
    (by decide) (by decide) (by decide) (Or.inl (by decide))

/-- C3 counterexample: for a stored entry whose metadata has no
`response_url` but does record the original request URL `http://x/a`,
`retrieve_response` returns a response whose URL is absent — it does not fall
back to the request URL recorded in metadata, contradicting the claim. -/
theorem response_url_no_fallback_cex :
    mNoUrl.response_url = none ∧ mNoUrl.url = "http://x/a" ∧
    fsGet (fsFull mNoUrl) (pW ++ ["pickled_meta".data]) = some ⟨Content.meta mNoUrl, 100⟩ ∧
    (retrieve_response (cfgOf 5) "sc".data reqW 100 (fsFull mNoUrl)).1 =
      Except.ok (some ⟨none, 200, [], "B".data⟩) := by
  refine ⟨rfl, rfl, by decide, by decide⟩

/-- C3 (amended): `retrieve_response` populates the reconstructed response's
URL with exactly the stored `response_url` value from metadata — when present
that value is used, and when absent the URL is absent too; there is no
fallback to the original request URL recorded in metadata. -/
theorem response_url_taken_directly (cfg : Config) (scope : Bytes) (req : Request)
    (now : Int) (fs : FS) (m : Meta) (cm cb ch : Content) (b rh : Bytes) (t0 tb th : Int)
    (h1 : fsGet fs (_get_request_path cfg scope req ++ ["pickled_meta".data]) = some ⟨cm, t0⟩)
    (h2 : cfg.dec cm = Content.meta m)
    (hfresh : ¬(0 < cfg.expiration_secs ∧ cfg.expiration_secs < now - t0))
    (h3 : fsGet fs (_get_request_path cfg scope req ++ ["response_body".data]) = some ⟨cb, tb⟩)
    (h4 : cfg.dec cb = Content.bytes b)
    (h5 : fsGet fs (_get_request_path cfg scope req ++ ["response_headers".data]) = some ⟨ch, th⟩)
    (h6 : cfg.dec ch = Content.bytes rh) :
    ∃ r : Response, (retrieve_response cfg scope req now fs).1 = Except.ok (some r) ∧
      r.url = m.response_url := by
  refine ⟨⟨m.response_url, m.status, headers_raw_to_dict rh, b⟩, ?_, rfl⟩
  rw [retrieve_present cfg scope req now fs m cm cb ch b rh t0 tb th h1 h2 hfresh h3 h4 h5 h6]

/-- C3 witness: with `response_url` present in metadata, that value is used. -/
theorem response_url_taken_directly_witness :
    ∃ r : Response, (retrieve_response (cfgOf 5) "sc".data reqW 100 (fsFull mW)).1 =
      Except.ok (some r) ∧ r.url = mW.response_url :=
  response_url_taken_directly (cfgOf 5) "sc".data reqW 100 (fsFull mW) mW
    (Content.meta mW) (Content.bytes "B".data) (Content.bytes []) "B".data [] 100 100 100
    (by decide) (by decide) (by decide) (by decide) (by decide) (by decide) (by decide)

/-- C4: with a positive expiration `T` and an entry whose `pickled_meta` has
last-modified time `t0` (and whose artifacts are present and
deserialisable), retrieval at `t0 + T - 1` returns the entry, retrieval at
`t0 + T + 1` returns absent, and in general the entry reads back as absent
exactly when `now - t0 > T` (the source's strict comparison
`0 < expiration_secs < now - mtime`). -/
theorem expiration_boundary (cfg : Config) (scope : Bytes) (req : Request)
    (fs : FS) (m : Meta) (cm cb ch : Content) (b rh : Bytes) (t0 tb th T : Int)
    (hT : cfg.expiration_secs = T) (hTpos : 0 < T)
    (h1 : fsGet fs (_get_request_path cfg scope req ++ ["pickled_meta".data]) = some ⟨cm, t0⟩)
    (h2 : cfg.dec cm = Content.meta m)
    (h3 : fsGet fs (_get_request_path cfg scope req ++ ["response_body".data]) = some ⟨cb, tb⟩)
    (h4 : cfg.dec cb = Content.bytes b)
    (h5 : fsGet fs (_get_request_path cfg scope req ++ ["response_headers".data]) = some ⟨ch, th⟩)
    (h6 : cfg.dec ch = Content.bytes rh) :
    (retrieve_response cfg scope req (t0 + T - 1) fs).1 =
      Except.ok (some ⟨m.response_url, m.status, headers_raw_to_dict rh, b⟩) ∧
    (retrieve_response cfg scope req (t0 + T + 1) fs).1 = Except.ok none ∧
    ∀ now, ((retrieve_response cfg scope req now fs).1 = Except.ok none ↔ now - t0 > T) := by
  refine ⟨?_, ?_, ?_⟩
  · have hfresh : ¬(0 < cfg.expiration_secs ∧ cfg.expiration_secs < (t0 + T - 1) - t0) := by
      rw [hT]; omega
    rw [retrieve_present cfg scope req (t0 + T - 1) fs m cm cb ch b rh t0 tb th
      h1 h2 hfresh h3 h4 h5 h6]
  · have hexp : 0 < cfg.expiration_secs ∧ cfg.expiration_secs < (t0 + T + 1) - t0 := by
      rw [hT]; omega
    rw [retrieve_of_expired cfg scope req (t0 + T + 1) fs cm t0 h1 hexp]
  · intro now
    by_cases hnow : now - t0 > T
    · have hexp : 0 < cfg.expiration_secs ∧ cfg.expiration_secs < now - t0 := by
        rw [hT]; omega
      rw [retrieve_of_expired cfg scope req now fs cm t0 h1 hexp]
      simp [hnow]
    · have hfresh : ¬(0 < cfg.expiration_secs ∧ cfg.expiration_secs < now - t0) := by
        rw [hT]; omega
      rw [retrieve_present cfg scope req now fs m cm cb ch b rh t0 tb th
        h1 h2 hfresh h3 h4 h5 h6]
      simp [hnow]

/-- C4 witness: `T = 5`, entry written at 100 — present at 104, absent at
106, and absent exactly when the age exceeds 5. -/
theorem expiration_boundary_witness :
    (retrieve_response (cfgOf 5) "sc".data reqW 104 (fsFull mW)).1 =
      Except.ok (some ⟨mW.response_url, mW.status, headers_raw_to_dict [], "B".data⟩) ∧
    (retrieve_response (cfgOf 5) "sc".data reqW 106 (fsFull mW)).1 = Except.ok none ∧
    ∀ now, ((retrieve_response (cfgOf 5) "sc".data reqW now (fsFull mW)).1 = Except.ok none ↔
      now - 100 > 5) :=
  expiration_boundary (cfgOf 5) "sc".data reqW (fsFull mW) mW (Content.meta mW)
    (Content.bytes "B".data) (Content.bytes []) "B".data [] 100 100 100 5
    rfl (by decide) (by decide) (by decide) (by decide) (by decide) (by decide) (by decide)

/-- C5: with expiration 0 or negative, no entry ever expires — a stored,
deserialisable entry written at `t0` is returned as present at every query
time, in particular at `t0 + 10 ^ 9` (see the witness). -/
theorem never_expire (cfg : Config) (scope : Bytes) (req : Request)
    (fs : FS) (m : Meta) (cm cb ch : Content) (b rh : Bytes) (t0 tb th : Int)
    (hT : cfg.expiration_secs ≤ 0)
    (h1 : fsGet fs (_get_request_path cfg scope req ++ ["pickled_meta".data]) = some ⟨cm, t0⟩)
    (h2 : cfg.dec cm = Content.meta m)
    (h3 : fsGet fs (_get_request_path cfg scope req ++ ["response_body".data]) = some ⟨cb, tb⟩)
    (h4 : cfg.dec cb = Content.bytes b)
    (h5 : fsGet fs (_get_request_path cfg scope req ++ ["response_headers".data]) = some ⟨ch, th⟩)
    (h6 : cfg.dec ch = Content.bytes rh) :
    ∀ now, (retrieve_response cfg scope req now fs).1 =
      Except.ok (some ⟨m.response_url, m.status, headers_raw_to_dict rh, b⟩) := by
  intro now
  have hfresh : ¬(0 < cfg.expiration_secs ∧ cfg.expiration_secs < now - t0) := by omega
  rw [retrieve_present cfg scope req now fs m cm cb ch b rh t0 tb th
    h1 h2 hfresh h3 h4 h5 h6]

/-- C5 witness: expiration 0, entry written at 100, still present at
`100 + 10 ^ 9`. -/
theorem never_expire_witness :
    (retrieve_response (cfgOf 0) "sc".data reqW (100 + 10 ^ 9) (fsFull mW)).1 =
      Except.ok (some ⟨mW.response_url, mW.status, headers_raw_to_dict [], "B".data⟩) :=
  never_expire (cfgOf 0) "sc".data reqW (fsFull mW) mW (Content.meta mW)
    (Content.bytes "B".data) (Content.bytes []) "B".data [] 100 100 100
    (by decide) (by decide) (by decide) (by decide) (by decide) (by decide) (by decide)
    (100 + 10 ^ 9)

/-- C6: when the `pickled_meta` artifact does not exist at the computed path,
`retrieve_response` returns the absent result without error and leaves the
store unchanged. -/
theorem miss_on_absent_entry (cfg : Config) (scope : Bytes) (req : Request)
    (now : Int) (fs : FS)
    (h : fsGet fs (_get_request_path cfg scope req ++ ["pickled_meta".data]) = none) :
    retrieve_response cfg scope req now fs = (Except.ok none, fs) :=
  retrieve_of_absent cfg scope req now fs h

/-- C6 witness: retrieval from an empty store is a miss, not an error. -/
theorem miss_on_absent_entry_witness :
    retrieve_response (cfgOf 5) "sc".data reqW 100 [] = (Except.ok none, []) :=
  miss_on_absent_entry (cfgOf 5) "sc".data reqW 100 [] (by decide)

/-- C7: for a request with derived key `k` (of length at least two, as
produced by the fingerprint hash), the single path function used by both
operations addresses the entry at `root / scope / k[0:2] / k`: the shard
component is exactly the two-character prefix of `k`, every artifact written
by `store_response` lives directly under that path, and the result of
`retrieve_response` depends only on the files under that path. -/
theorem shard_path_consistent (cfg : Config) (scope : Bytes) (req : Request)
    (resp : Response) (now : Int)
    (hk : 2 ≤ (cfg.fingerprint req).length) :
    _get_request_path cfg scope req =
      [cfg.cachedir, scope, (cfg.fingerprint req).take 2, cfg.fingerprint req] ∧
    ((cfg.fingerprint req).take 2).length = 2 ∧
    (∀ w ∈ store_writes cfg scope req resp now, ∃ name,
      w.1 = _get_request_path cfg scope req ++ [name]) ∧
    ∀ (now' : Int) (fs1 fs2 : FS),
      (∀ name, fsGet fs1 (_get_request_path cfg scope req ++ [name]) =
               fsGet fs2 (_get_request_path cfg scope req ++ [name])) →
      (retrieve_response cfg scope req now' fs1).1 =
        (retrieve_response cfg scope req now' fs2).1 := by
  refine ⟨rfl, ?_, ?_, ?_⟩
  · rw [List.length_take]; omega
  · intro w hw
    simp only [store_writes, List.mem_cons, List.not_mem_nil, or_false] at hw
    rcases hw with rfl | rfl | rfl | rfl | rfl | rfl
    · exact ⟨"meta".data, rfl⟩
    · exact ⟨"pickled_meta".data, rfl⟩
    · exact ⟨"response_headers".data, rfl⟩
    · exact ⟨"response_body".data, rfl⟩
    · exact ⟨"request_headers".data, rfl⟩
    · exact ⟨"request_body".data, rfl⟩
  · intro now' fs1 fs2 hagree
    exact retrieve_result_congr cfg scope req now' fs1 fs2 (hagree _) (hagree _) (hagree _)

/-- C7 witness: concrete instantiation with the four-character key `abcd`. -/
theorem shard_path_consistent_witness :
    _get_request_path (cfgOf 5) "sc".data reqW =
      [(cfgOf 5).cachedir, "sc".data, ((cfgOf 5).fingerprint reqW).take 2,
        (cfgOf 5).fingerprint reqW] ∧
    (((cfgOf 5).fingerprint reqW).take 2).length = 2 ∧
    (∀ w ∈ store_writes (cfgOf 5) "sc".data reqW respW 0, ∃ name,
      w.1 = _get_request_path (cfgOf 5) "sc".data reqW ++ [name]) ∧
    ∀ (now' : Int) (fs1 fs2 : FS),
      (∀ name, fsGet fs1 (_get_request_path (cfgOf 5) "sc".data reqW ++ [name]) =
               fsGet fs2 (_get_request_path (cfgOf 5) "sc".data reqW ++ [name])) →
      (retrieve_response (cfgOf 5) "sc".data reqW now' fs1).1 =
        (retrieve_response (cfgOf 5) "sc".data reqW now' fs2).1 :=
  shard_path_consistent (cfgOf 5) "sc".data reqW respW 0 (by decide)

/-- C8: `store_response` writes exactly six artifacts — no path outside the
six is touched — in source order `meta`, `pickled_meta`, `response_headers`,
`response_body`, `request_headers`, `request_body`, each content passed
through the configured byte-stream transform `enc`, and each write fully
replaces any prior content at that path regardless of the prior store
state. -/
theorem store_six_artifacts (cfg : Config) (scope : Bytes) (req : Request)
    (resp : Response) (now : Int) :
    ((store_writes cfg scope req resp now).map Prod.fst =
      [ _get_request_path cfg scope req ++ ["meta".data]
      , _get_request_path cfg scope req ++ ["pickled_meta".data]
      , _get_request_path cfg scope req ++ ["response_headers".data]
      , _get_request_path cfg scope req ++ ["response_body".data]
      , _get_request_path cfg scope req ++ ["request_headers".data]
      , _get_request_path cfg scope req ++ ["request_body".data] ]) ∧
    (∀ fs : FS,
      fsGet (store_response cfg scope req resp now fs)
          (_get_request_path cfg scope req ++ ["meta".data]) =
        some ⟨cfg.enc (Content.bytes (metaRepr (storedMeta req resp now))), now⟩ ∧
      fsGet (store_response cfg scope req resp now fs)
          (_get_request_path cfg scope req ++ ["pickled_meta".data]) =
        some ⟨cfg.enc (Content.meta (storedMeta req resp now)), now⟩ ∧
      fsGet (store_response cfg scope req resp now fs)
          (_get_request_path cfg scope req ++ ["response_headers".data]) =
        some ⟨cfg.enc (Content.bytes (headers_dict_to_raw resp.headers)), now⟩ ∧
      fsGet (store_response cfg scope req resp now fs)
          (_get_request_path cfg scope req ++ ["response_body".data]) =
        some ⟨cfg.enc (Content.bytes resp.body), now⟩ ∧
      fsGet (store_response cfg scope req resp now fs)
          (_get_request_path cfg scope req ++ ["request_headers".data]) =
        some ⟨cfg.enc (Content.bytes (headers_dict_to_raw req.headers)), now⟩ ∧
      fsGet (store_response cfg scope req resp now fs)
          (_get_request_path cfg scope req ++ ["request_body".data]) =
        some ⟨cfg.enc (Content.bytes req.body), now⟩) ∧
    ∀ (fs : FS) (q : FPath), q ∉ (store_writes cfg scope req resp now).map Prod.fst →
      fsGet (store_response cfg scope req resp now fs) q = fsGet fs q := by
  refine ⟨rfl, fun fs => ⟨store_get_meta cfg scope req resp now fs,
    store_get_pickled_meta cfg scope req resp now fs,
    store_get_response_headers cfg scope req resp now fs,
    store_get_response_body cfg scope req resp now fs,
    store_get_request_headers cfg scope req resp now fs,
    store_get_request_body cfg scope req resp now fs⟩, fun fs q hq => ?_⟩
  have h' : ∀ w ∈ store_writes cfg scope req resp now, w.1 ≠ q :=
    fun w hw he => hq (he ▸ List.mem_map_of_mem Prod.fst hw)
  unfold store_response
  exact fsGet_foldl_frame _ fs q h'

/-- C8 witness: concrete instantiation of the six-artifact write contract. -/
theorem store_six_artifacts_witness :
    ((store_writes (cfgOf 5) "sc".data reqW respW 0).map Prod.fst =
      [ _get_request_path (cfgOf 5) "sc".data reqW ++ ["meta".data]
      , _get_request_path (cfgOf 5) "sc".data reqW ++ ["pickled_meta".data]
      , _get_request_path (cfgOf 5) "sc".data reqW ++ ["response_headers".data]
      , _get_request_path (cfgOf 5) "sc".data reqW ++ ["response_body".data]
      , _get_request_path (cfgOf 5) "sc".data reqW ++ ["request_headers".data]
      , _get_request_path (cfgOf 5) "sc".data reqW ++ ["request_body".data] ]) ∧
    (∀ fs : FS,
      fsGet (store_response (cfgOf 5) "sc".data reqW respW 0 fs)
          (_get_request_path (cfgOf 5) "sc".data reqW ++ ["meta".data]) =
        some ⟨(cfgOf 5).enc (Content.bytes (metaRepr (storedMeta reqW respW 0))), 0⟩ ∧
      fsGet (store_response (cfgOf 5) "sc".data reqW respW 0 fs)
          (_get_request_path (cfgOf 5) "sc".data reqW ++ ["pickled_meta".data]) =
        some ⟨(cfgOf 5).enc (Content.meta (storedMeta reqW respW 0)), 0⟩ ∧
      fsGet (store_response (cfgOf 5) "sc".data reqW respW 0 fs)
          (_get_request_path (cfgOf 5) "sc".data reqW ++ ["response_headers".data]) =
        some ⟨(cfgOf 5).enc (Content.bytes (headers_dict_to_raw respW.headers)), 0⟩ ∧
      fsGet (store_response (cfgOf 5) "sc".data reqW respW 0 fs)
          (_get_request_path (cfgOf 5) "sc".data reqW ++ ["response_body".data]) =
        some ⟨(cfgOf 5).enc (Content.bytes respW.body), 0⟩ ∧
      fsGet (store_response (cfgOf 5) "sc".data reqW respW 0 fs)
          (_get_request_path (cfgOf 5) "sc".data reqW ++ ["request_headers".data]) =
        some ⟨(cfgOf 5).enc (Content.bytes (headers_dict_to_raw reqW.headers)), 0⟩ ∧
      fsGet (store_response (cfgOf 5) "sc".data reqW respW 0 fs)
          (_get_request_path (cfgOf 5) "sc".data reqW ++ ["request_body".data]) =
        some ⟨(cfgOf 5).enc (Content.bytes reqW.body), 0⟩) ∧
    ∀ (fs : FS) (q : FPath),
      q ∉ (store_writes (cfgOf 5) "sc".data reqW respW 0).map Prod.fst →
      fsGet (store_response (cfgOf 5) "sc".data reqW respW 0 fs) q = fsGet fs q :=
  store_six_artifacts (cfgOf 5) "sc".data reqW respW 0

/-- C9: `retrieve_response` never modifies the store — on every store state
(entry fresh, expired, corrupt or absent) the store component of its result
is exactly the input store, so no artifact is deleted or altered by a read;
in particular an expired entry is skipped but left on disk. -/
theorem retrieve_never_mutates (cfg : Config) (scope : Bytes) (req : Request)
    (now : Int) (fs : FS) : (retrieve_response cfg scope req now fs).2 = fs := by
  simp only [retrieve_response, _read_meta]
  repeat' split
  all_goals rfl

/-- C10: freshness is decided solely by the `pickled_meta` artifact's
last-modified time against the clock. First part: two stores holding
metadata at the same mtime whose stored `timestamp` fields differ (all else
equal) yield the same freshness decision in `_read_meta` — the stored
timestamp field is never consulted. Second part: with positive expiration
`T`, an entry whose age is exactly `T` (`now - mtime = T`) is still fresh,
because the source's comparison `expiration_secs < now - mtime` is
strict. -/
theorem freshness_mtime_only :
    (∀ (cfg : Config) (scope : Bytes) (req : Request) (now : Int) (m : Meta)
      (ts' : Int) (cm1 cm2 : Content) (t0 : Int) (fs1 fs2 : FS),
      fsGet fs1 (_get_request_path cfg scope req ++ ["pickled_meta".data]) = some ⟨cm1, t0⟩ →
      cfg.dec cm1 = Content.meta m →
      fsGet fs2 (_get_request_path cfg scope req ++ ["pickled_meta".data]) = some ⟨cm2, t0⟩ →
      cfg.dec cm2 = Content.meta {m with timestamp := ts'} →
      (_read_meta cfg scope req now fs1 = Except.ok (some m) ↔
       _read_meta cfg scope req now fs2 = Except.ok (some {m with timestamp := ts'}))) ∧
    (∀ (cfg : Config) (scope : Bytes) (req : Request) (fs : FS) (m : Meta)
      (cm cb ch : Content) (b rh : Bytes) (t0 tb th : Int),
      0 < cfg.expiration_secs →
      fsGet fs (_get_request_path cfg scope req ++ ["pickled_meta".data]) = some ⟨cm, t0⟩ →
      cfg.dec cm = Content.meta m →
      fsGet fs (_get_request_path cfg scope req ++ ["response_body".data]) = some ⟨cb, tb⟩ →
      cfg.dec cb = Content.bytes b →
      fsGet fs (_get_request_path cfg scope req ++ ["response_headers".data]) = some ⟨ch, th⟩ →
      cfg.dec ch = Content.bytes rh →
      (retrieve_response cfg scope req (t0 + cfg.expiration_secs) fs).1 =
        Except.ok (some ⟨m.response_url, m.status, headers_raw_to_dict rh, b⟩)) := by
  constructor
  · intro cfg scope req now m ts' cm1 cm2 t0 fs1 fs2 h1 h2 h3 h4
    by_cases hex : 0 < cfg.expiration_secs ∧ cfg.expiration_secs < now - t0
    · simp only [_read_meta, h1, h3]
      rw [if_pos hex, if_pos hex]
      simp
    · simp only [_read_meta, h1, h3]
      rw [if_neg hex, if_neg hex, h2, h4]
      simp
  · intro cfg scope req fs m cm cb ch b rh t0 tb th hTpos h1 h2 h3 h4 h5 h6
    have hfresh : ¬(0 < cfg.expiration_secs ∧
        cfg.expiration_secs < (t0 + cfg.expiration_secs) - t0) := by omega
    rw [retrieve_present cfg scope req (t0 + cfg.expiration_secs) fs m cm cb ch b rh
      t0 tb th h1 h2 hfresh h3 h4 h5 h6]

/-- C10 witness: the stored timestamp 777 instead of 100 does not change the
freshness decision, and with `T = 5` the entry written at 100 is still fresh
at 105. -/
theorem freshness_mtime_only_witness :
    ((_read_meta (cfgOf 5) "sc".data reqW 103 (fsFull mW) = Except.ok (some mW) ↔
      _read_meta (cfgOf 5) "sc".data reqW 103 (fsFull mTs) =
        Except.ok (some {mW with timestamp := 777})) ∧
     (retrieve_response (cfgOf 5) "sc".data reqW (100 + (cfgOf 5).expiration_secs)
        (fsFull mW)).1 =
      Except.ok (some ⟨mW.response_url, mW.status, headers_raw_to_dict [], "B".data⟩)) :=
  ⟨freshness_mtime_only.1 (cfgOf 5) "sc".data reqW 103 mW 777
      (Content.meta mW) (Content.meta mTs) 100 (fsFull mW) (fsFull mTs)
      (by decide) (by decide) (by decide) (by decide),
   freshness_mtime_only.2 (cfgOf 5) "sc".data reqW (fsFull mW) mW
      (Content.meta mW) (Content.bytes "B".data) (Content.bytes []) "B".data [] 100 100 100
      (by decide) (by decide) (by decide) (by decide) (by decide) (by decide) (by decide)⟩
